import Mathlib

/-!
Verification of the reservoird `icd` package (interface control document for
reservoird plugins) against its natural-language specification.

The package `icd` declares four plugin interfaces: `Queue`, `Ingester`,
`Digester`, `Expeller` (src/icd.go).  It contains declarations only, no
implementation, so this development has two layers:

1. A faithful embedding of the Go interface declarations themselves
   (method names, parameter names, channel element types and channel
   directions), used for the claims that are about the shape of the
   contract.

2. Executable models of the behaviour the contract prescribes for any
   conforming implementation (the queue semantics and the shutdown
   coordinator), modelled from the specification since the repository
   ships no implementation of them.
-/

namespace Icd

/-- Direction of a Go channel parameter: `chan<- T` (send-only from the
callee's side) or `<-chan T` (receive-only from the callee's side). -/
inductive ChanDir where
  | sendOnly
  | recvOnly
  deriving DecidableEq, Repr

/-- A Go type as it appears in the `icd` interface signatures. -/
inductive GoType where
  | string
  | int
  | bool
  | goError
  | emptyInterface
  | queue
  | queueSlice
  | chan (dir : ChanDir) (elem : String)
  | waitGroupPtr
  deriving DecidableEq, Repr

/-- A named parameter of a Go method. -/
structure GoParam where
  pname : String
  ty : GoType
  deriving DecidableEq, Repr

/-- A method of a Go interface: name, parameters, result types. -/
structure GoMethod where
  mname : String
  params : List GoParam
  results : List GoType
  deriving DecidableEq, Repr

/-- The `Monitor` method shared verbatim by all four interfaces
(src/icd.go lines 137-147, 178-188, 223-233, 265-275):
`Monitor(statsChan chan<- string, clearChan <-chan struct{},
doneChan <-chan struct{}, waitGroup *sync.WaitGroup)`. -/
def monitorMethod : GoMethod :=
  { mname := "Monitor"
    params :=
      [ { pname := "statsChan", ty := .chan .sendOnly "string" }
      , { pname := "clearChan", ty := .chan .recvOnly "struct\x7b\x7d" }
      , { pname := "doneChan", ty := .chan .recvOnly "struct\x7b\x7d" }
      , { pname := "waitGroup", ty := .waitGroupPtr } ]
    results := [] }

/-- The `Queue` interface (src/icd.go lines 107-148). -/
def queueInterface : List GoMethod :=
  [ { mname := "Name", params := [], results := [.string] }
  , { mname := "Put", params := [{ pname := "item", ty := .emptyInterface }],
      results := [.goError] }
  , { mname := "Get", params := [], results := [.emptyInterface, .goError] }
  , { mname := "Len", params := [], results := [.int] }
  , { mname := "Cap", params := [], results := [.int] }
  , { mname := "Clear", params := [], results := [] }
  , { mname := "Close", params := [], results := [.goError] }
  , { mname := "Closed", params := [], results := [.bool] }
  , monitorMethod ]

/-- The `Ingester` interface (src/icd.go lines 155-189). -/
def ingesterInterface : List GoMethod :=
  [ { mname := "Name", params := [], results := [.string] }
  , { mname := "Running", params := [], results := [.bool] }
  , { mname := "Ingest"
    , params :=
        [ { pname := "sendQueue", ty := .queue }
        , { pname := "doneChan", ty := .chan .recvOnly "struct\x7b\x7d" }
        , { pname := "waitGroup", ty := .waitGroupPtr } ]
    , results := [] }
  , monitorMethod ]

/-- The `Digester` interface (src/icd.go lines 194-234). -/
def digesterInterface : List GoMethod :=
  [ { mname := "Name", params := [], results := [.string] }
  , { mname := "Running", params := [], results := [.bool] }
  , { mname := "Digest"
    , params :=
        [ { pname := "recvQueue", ty := .queue }
        , { pname := "sendQueue", ty := .queue }
        , { pname := "doneChan", ty := .chan .recvOnly "struct\x7b\x7d" }
        , { pname := "waitGroup", ty := .waitGroupPtr } ]
    , results := [] }
  , monitorMethod ]

/-- The `Expeller` interface (src/icd.go lines 241-276). -/
def expellerInterface : List GoMethod :=
  [ { mname := "Name", params := [], results := [.string] }
  , { mname := "Running", params := [], results := [.bool] }
  , { mname := "Expel"
    , params :=
        [ { pname := "recvQueues", ty := .queueSlice }
        , { pname := "doneChan", ty := .chan .recvOnly "struct\x7b\x7d" }
        , { pname := "waitGroup", ty := .waitGroupPtr } ]
    , results := [] }
  , monitorMethod ]

/-- Look up a method of an interface by name. -/
def findMethod (iface : List GoMethod) (m : String) : Option GoMethod :=
  iface.find? (fun md => md.mname == m)

/-- The signatures of the long-running loop methods of the four plugin
interfaces: `Queue.Monitor`, `Ingester.Ingest`/`Monitor`,
`Digester.Digest`/`Monitor`, `Expeller.Expel`/`Monitor`. -/
def longRunningSigs : List (Option GoMethod) :=
  [ findMethod queueInterface "Monitor"
  , findMethod ingesterInterface "Ingest"
  , findMethod ingesterInterface "Monitor"
  , findMethod digesterInterface "Digest"
  , findMethod digesterInterface "Monitor"
  , findMethod expellerInterface "Expel"
  , findMethod expellerInterface "Monitor" ]

/-- Whether a parameter is a channel sent into from the callee's side. -/
def isSendChan (p : GoParam) : Bool :=
  match p.ty with
  | .chan .sendOnly _ => true
  | _ => false

/-- Whether a parameter is a channel only received from on the callee's side. -/
def isRecvChan (p : GoParam) : Bool :=
  match p.ty with
  | .chan .recvOnly _ => true
  | _ => false

/-- Whether a parameter is a channel of either direction. -/
def isChan (p : GoParam) : Bool :=
  match p.ty with
  | .chan _ _ => true
  | _ => false

/-- Whether a method's channel parameters respect the orchestrator/plugin
capability split: `doneChan` and `clearChan` are receive-only empty-struct
channels, `statsChan` is a send-only string channel, and no other
parameter is a channel at all. -/
def bundleDirsOk (m : GoMethod) : Bool :=
  m.params.all fun p =>
    if p.pname == "doneChan" then p.ty == GoType.chan ChanDir.recvOnly "struct\x7b\x7d"
    else if p.pname == "clearChan" then p.ty == GoType.chan ChanDir.recvOnly "struct\x7b\x7d"
    else if p.pname == "statsChan" then p.ty == GoType.chan ChanDir.sendOnly "string"
    else !(isChan p)

/-! ## Queue semantics

The repository declares the `Queue` interface but ships no queue
implementation; the behaviour below is the contract every conforming
implementation must satisfy, modelled from the spec (spec sections 3
and 4.1).  Gets and puts are modelled in their non-blocking variant:
a transient "empty but open" condition is the status `QErr.empty`,
distinct from `QErr.closedAndEmpty`; a full bounded queue under the
non-blocking overflow policy yields `QErr.capacity`. -/

/-- Error/status conditions surfaced by queue operations. -/
inductive QErr where
  | closed
  | capacity
  | empty
  | closedAndEmpty
  deriving DecidableEq, Repr

/-- Modelled from the spec: the state of a queue instance — name,
capacity (`none` = unbounded), FIFO contents, monotonic closed flag, and
statistics counters (items put, items got). -/
structure QueueState (α : Type) where
  qname : String
  capacity : Option Nat
  contents : List α
  closed : Bool
  statsPut : Nat
  statsGot : Nat
  deriving DecidableEq, Repr

/-- Modelled from the spec: a freshly constructed queue — fixed capacity,
no contents, open, zeroed statistics. -/
def newQueue (α : Type) (nm : String) (c : Option Nat) : QueueState α :=
  { qname := nm, capacity := c, contents := [], closed := false
    statsPut := 0, statsGot := 0 }

/-- `Len()`: number of items in the queue. -/
def len (q : QueueState α) : Nat :=
  q.contents.length

/-- `Cap()`: maximum number of items the queue can hold, -1 if unbounded. -/
def cap (q : QueueState α) : Int :=
  match q.capacity with
  | none => -1
  | some c => (c : Int)

/-- Whether a bounded queue is at capacity. -/
def isFull (q : QueueState α) : Bool :=
  match q.capacity with
  | none => false
  | some c => decide (c ≤ q.contents.length)

/-- Modelled from the spec: `Put(item)` — fails with the closed error on a
closed queue, with the capacity error when bounded and full (non-blocking
overflow policy); otherwise appends the item and increments the
put-counter.  The state is returned unchanged on failure. -/
def put (q : QueueState α) (x : α) : Option QErr × QueueState α :=
  if q.closed then (some .closed, q)
  else if isFull q then (some .capacity, q)
  else (none, { q with contents := q.contents ++ [x], statsPut := q.statsPut + 1 })

/-- Modelled from the spec: `Get()` — returns the oldest item and
increments the get-counter; on an exhausted closed queue fails with the
closed-and-empty condition; on an empty open queue yields the transient
empty status (non-blocking variant). -/
def get (q : QueueState α) : Except QErr α × QueueState α :=
  match q.contents with
  | x :: rest => (.ok x, { q with contents := rest, statsGot := q.statsGot + 1 })
  | [] => if q.closed then (.error .closedAndEmpty, q) else (.error .empty, q)

/-- Modelled from the spec: `Clear()` — discards the queued items,
touching neither the closed flag nor the capacity nor the statistics. -/
def clear (q : QueueState α) : QueueState α :=
  { q with contents := [] }

/-- Modelled from the spec: `Close()` — sets the monotonic closed flag;
idempotent, never an error. -/
def close (q : QueueState α) : Option QErr × QueueState α :=
  (none, { q with closed := true })

/-- Modelled from the spec: `ClearStats()` — resets the statistics
counters to the zero baseline without affecting queued contents. -/
def clearStats (q : QueueState α) : QueueState α :=
  { q with statsPut := 0, statsGot := 0 }

/-- Modelled from the spec: `Stats()` — a snapshot of the statistics
counters and the current depth. -/
def stats (q : QueueState α) : Nat × Nat × Nat :=
  (q.statsPut, q.statsGot, len q)

/-- A queue operation, for stating invariants over arbitrary call
sequences. -/
inductive QOp (α : Type) where
  | put (x : α)
  | get
  | clear
  | close
  | clearStats
  deriving DecidableEq, Repr

/-- The state effect of one queue operation. -/
def stepOp (q : QueueState α) : QOp α → QueueState α
  | .put x => (put q x).2
  | .get => (get q).2
  | .clear => clear q
  | .close => (close q).2
  | .clearStats => clearStats q

/-- The state after a sequence of queue operations. -/
def runOps (q : QueueState α) : List (QOp α) → QueueState α
  | [] => q
  | op :: rest => runOps (stepOp q op) rest

/-- Repeated `Get()`: the list of successfully returned items over `n`
consecutive calls, and the final state. -/
def getSeq (q : QueueState α) : Nat → List α × QueueState α
  | 0 => ([], q)
  | n + 1 =>
    match get q with
    | (.ok x, q') =>
      let r := getSeq q' n
      (x :: r.1, r.2)
    | (.error _, q') => ([], q')

/-- A data-path operation of the single producer (`Put`) or the single
consumer (`Get`), for stating the FIFO property over interleavings. -/
inductive PGOp (α : Type) where
  | put (x : α)
  | get
  deriving DecidableEq, Repr

/-- Run an interleaved sequence of producer `Put`s and consumer `Get`s,
collecting the final state, the values of the successful `Put` calls and
the values returned by the successful `Get` calls, each in call order. -/
def runTrace (q : QueueState α) : List (PGOp α) → QueueState α × List α × List α
  | [] => (q, [], [])
  | .put x :: rest =>
    match put q x with
    | (none, q') =>
      let r := runTrace q' rest
      (r.1, x :: r.2.1, r.2.2)
    | (some _, q') => runTrace q' rest
  | .get :: rest =>
    match get q with
    | (.ok x, q') =>
      let r := runTrace q' rest
      (r.1, r.2.1, x :: r.2.2)
    | (.error _, q') => runTrace q' rest

/-! ## Shutdown coordinator

Modelled from the spec (spec sections 3 and 4.3): a broadcast-once done
signal plus a counting join barrier.  Each started loop (one per stage
plus one per monitor) is `Running`, then observes the asserted done
signal, then exits, decrementing the barrier exactly once at the moment
it exits (the `exitLoop` transition requires the loop not to have exited
yet and flips its `exited` flag as it decrements). -/

/-- Modelled from the spec: the observable state of one started loop
(a stage's long-running loop or a monitor loop). -/
structure LoopSt where
  observed : Bool
  exited : Bool
  deriving DecidableEq, Repr

/-- Modelled from the spec: the shutdown coordinator — the shared done
signal, the join barrier counter, and the per-loop states. -/
structure Coord where
  done : Bool
  barrier : Nat
  loops : List LoopSt
  deriving DecidableEq, Repr

/-- Modelled from the spec: the coordinator at startup — `n` started
loops, barrier initialized to `n`, done not yet asserted. -/
def initCoord (n : Nat) : Coord :=
  { done := false, barrier := n
    loops := List.replicate n { observed := false, exited := false } }

/-- Number of loops that have not yet exited. -/
def countRunning (l : List LoopSt) : Nat :=
  l.countP fun s => !s.exited

/-- Modelled from the spec: one coordinator transition — the supervisor
asserts the done signal (idempotent broadcast), a running loop observes
the asserted signal, or a loop that has observed the signal exits,
decrementing the join barrier exactly once. -/
inductive CStep : Coord → Coord → Prop where
  | assertDone (c : Coord) : CStep c { c with done := true }
  | observe (c : Coord) (i : Nat) (hi : i < c.loops.length)
      (hdone : c.done = true)
      (hrun : (c.loops.get ⟨i, hi⟩).exited = false) :
      CStep c { c with loops := c.loops.set i { observed := true, exited := false } }
  | exitLoop (c : Coord) (i : Nat) (hi : i < c.loops.length)
      (hobs : (c.loops.get ⟨i, hi⟩).observed = true)
      (hrun : (c.loops.get ⟨i, hi⟩).exited = false) :
      CStep c { c with loops := c.loops.set i { observed := true, exited := true }
                       barrier := c.barrier - 1 }

/-- Coordinator states reachable from startup with `n` started loops. -/
def CReach (n : Nat) (c : Coord) : Prop :=
  Relation.ReflTransGen CStep (initCoord n) c

/-- Modelled from the spec: the supervising process returns from its
shutdown wait exactly when the join barrier has reached zero. -/
def waitReturns (c : Coord) : Prop :=
  c.barrier = 0

/-- The coordinator invariant: the loop count is stable, the barrier
counts exactly the loops that have not exited, every exited loop has
observed the done signal, and an observed signal was indeed asserted. -/
def CInv (n : Nat) (c : Coord) : Prop :=
  c.loops.length = n ∧
  c.barrier = countRunning c.loops ∧
  (∀ s ∈ c.loops, s.exited = true → s.observed = true) ∧
  (∀ s ∈ c.loops, s.observed = true → c.done = true)

end Icd

namespace Icd

theorem cinv_init (n : Nat) : CInv n (initCoord n) := by
  refine ⟨by simp [initCoord], ?_, ?_, ?_⟩
  · simp only [initCoord, countRunning]
    rw [List.countP_eq_length.mpr]
    · simp
    · intro a ha
      rw [List.eq_of_mem_replicate ha]
      rfl
  · intro s hs hex
    rw [List.eq_of_mem_replicate hs] at hex
    simp at hex
  · intro s hs hobs
    rw [List.eq_of_mem_replicate hs] at hobs
    simp at hobs

theorem cstep_preserves_cinv (n : Nat) {c c' : Coord}
    (hstep : CStep c c') (hinv : CInv n c) : CInv n c' := by
  obtain ⟨hlen, hbar, hexobs, hobsdone⟩ := hinv
  cases hstep with
  | assertDone =>
    exact ⟨hlen, hbar, hexobs, fun s _ _ => rfl⟩
  | observe i hi hdone hrun =>
    simp only [List.get_eq_getElem] at hrun
    have hset := List.countP_set (fun s => !s.exited) c.loops i
      { observed := true, exited := false } hi
    have hone := List.boole_getElem_le_countP (fun s => !s.exited) c.loops i hi
    refine ⟨by simpa using hlen, ?_, ?_, ?_⟩
    · simp only [countRunning] at hbar ⊢
      rw [hset]
      have hproj : ({ observed := true, exited := false } : LoopSt).exited = false := rfl
      simp [hrun, hproj]
      have h1 : (if (!c.loops[i].exited) = true then 1 else 0) = 1 := by
        rw [hrun]
        rfl
      rw [h1] at hone
      omega
    · intro s hs hex
      rcases List.mem_or_eq_of_mem_set hs with h | h
      · exact hexobs s h hex
      · rw [h]
    · intro s _ _
      exact hdone
  | exitLoop i hi hobs hrun =>
    simp only [List.get_eq_getElem] at hrun
    have hset := List.countP_set (fun s => !s.exited) c.loops i
      { observed := true, exited := true } hi
    have hdone : c.done = true :=
      hobsdone (c.loops.get ⟨i, hi⟩) (List.get_mem c.loops i hi) hobs
    refine ⟨by simpa using hlen, ?_, ?_, ?_⟩
    · simp only [countRunning] at hbar ⊢
      rw [hset]
      have hproj : ({ observed := true, exited := true } : LoopSt).exited = true := rfl
      simp [hrun, hproj]
      omega
    · intro s hs hex
      rcases List.mem_or_eq_of_mem_set hs with h | h
      · exact hexobs s h hex
      · rw [h]
    · intro s hs hobs2
      exact hdone

theorem creach_cinv {n : Nat} {c : Coord} (h : CReach n c) : CInv n c := by
  induction h with
  | refl => exact cinv_init n
  | tail _ hstep ih => exact cstep_preserves_cinv n hstep ih

/-- C1: in every reachable coordinator state, the number of started loops
is preserved, the join barrier is zero exactly when every started loop
has exited, every exited loop first observed the asserted done signal
(decrements happen exactly once, at loop exit, by the `exitLoop`
transition), and the supervising process never returns from its shutdown
wait before the barrier is zero — when it returns, every loop has
observed done and exited. -/
theorem shutdown_barrier_zero_iff_all_exited (n : Nat) (c : Coord)
    (h : CReach n c) :
    c.loops.length = n ∧
    (c.barrier = 0 ↔ ∀ s ∈ c.loops, s.exited = true) ∧
    (∀ s ∈ c.loops, s.exited = true → s.observed = true ∧ c.done = true) ∧
    (waitReturns c → ∀ s ∈ c.loops, s.exited = true ∧ s.observed = true) := by
  obtain ⟨hlen, hbar, hexobs, hobsdone⟩ := creach_cinv h
  have hiff : c.barrier = 0 ↔ ∀ s ∈ c.loops, s.exited = true := by
    rw [hbar, countRunning, List.countP_eq_zero]
    constructor
    · intro hz s hs
      have := hz s hs
      simpa using this
    · intro hall s hs
      simp [hall s hs]
  refine ⟨hlen, hiff, ?_, ?_⟩
  · intro s hs hex
    exact ⟨hexobs s hs hex, hobsdone s hs (hexobs s hs hex)⟩
  · intro hw s hs
    have hex := hiff.mp hw s hs
    exact ⟨hex, hexobs s hs hex⟩

theorem shutdown_barrier_zero_iff_all_exited_witness :
    (Coord.mk true 0 [{ observed := true, exited := true }]).loops.length = 1 ∧
    ((Coord.mk true 0 [{ observed := true, exited := true }]).barrier = 0 ↔
      ∀ s ∈ (Coord.mk true 0 [{ observed := true, exited := true }]).loops,
        s.exited = true) ∧
    (∀ s ∈ (Coord.mk true 0 [{ observed := true, exited := true }]).loops,
      s.exited = true → s.observed = true ∧
        (Coord.mk true 0 [{ observed := true, exited := true }]).done = true) ∧
    (waitReturns (Coord.mk true 0 [{ observed := true, exited := true }]) →
      ∀ s ∈ (Coord.mk true 0 [{ observed := true, exited := true }]).loops,
        s.exited = true ∧ s.observed = true) := by
  have s1 : CStep (initCoord 1)
      (Coord.mk true 1 [{ observed := false, exited := false }]) :=
    CStep.assertDone (initCoord 1)
  have s2 : CStep (Coord.mk true 1 [{ observed := false, exited := false }])
      (Coord.mk true 1 [{ observed := true, exited := false }]) :=
    CStep.observe (Coord.mk true 1 [{ observed := false, exited := false }])
      0 (by decide) rfl rfl
  have s3 : CStep (Coord.mk true 1 [{ observed := true, exited := false }])
      (Coord.mk true 0 [{ observed := true, exited := true }]) :=
    CStep.exitLoop (Coord.mk true 1 [{ observed := true, exited := false }])
      0 (by decide) rfl rfl
  have hreach : CReach 1 (Coord.mk true 0 [{ observed := true, exited := true }]) :=
    Relation.ReflTransGen.tail
      (Relation.ReflTransGen.tail (Relation.ReflTransGen.single s1) s2) s3
  exact shutdown_barrier_zero_iff_all_exited 1 _ hreach

theorem getSeq_drains_closed (n : Nat) :
    ∀ q : QueueState α, q.closed = true → q.contents.length ≤ n →
      (getSeq q n).1 = q.contents ∧
      (getSeq q n).2.contents = [] ∧
      (getSeq q n).2.closed = true := by
  induction n with
  | zero =>
    intro q hq hlen
    have hnil : q.contents = [] := List.eq_nil_of_length_eq_zero (Nat.le_zero.mp hlen)
    exact ⟨hnil.symm, hnil, hq⟩
  | succ n ih =>
    intro q hq hlen
    cases hc : q.contents with
    | nil =>
      have hget : get q = (Except.error QErr.closedAndEmpty, q) := by
        simp [get, hc, hq]
      simp [getSeq, hget, hc, hq]
    | cons x rest =>
      have hget : get q =
          (Except.ok x, { q with contents := rest, statsGot := q.statsGot + 1 }) := by
        simp [get, hc]
      have hrest : rest.length ≤ n := by
        rw [hc] at hlen
        simpa using hlen
      have := ih { q with contents := rest, statsGot := q.statsGot + 1 } hq hrest
      simp [getSeq, hget, hc, this.1, this.2.1, this.2.2]

theorem getSeq_exhausted (k : Nat) (q : QueueState α)
    (hq : q.closed = true) (hc : q.contents = []) :
    getSeq q k = ([], q) := by
  cases k with
  | zero => rfl
  | succ k =>
    have hget : get q = (Except.error QErr.closedAndEmpty, q) := by
      simp [get, hc, hq]
    simp [getSeq, hget]

/-- C2: after `Close()`, repeated `Get()` calls return every item queued
before the close in FIFO order; once the contents are exhausted every
further `Get()` fails with the closed-and-empty condition (and keeps
failing), a condition distinct from the transient empty status of an
open queue. -/
theorem queue_closed_drain (q : QueueState α) (n : Nat) (h : len q ≤ n) :
    (getSeq (close q).2 n).1 = q.contents ∧
    (∀ k, (getSeq (getSeq (close q).2 n).2 k).1 = []) ∧
    (get (getSeq (close q).2 n).2).1 = Except.error QErr.closedAndEmpty ∧
    (∀ q2 : QueueState α, q2.closed = false → q2.contents = [] →
      (get q2).1 = Except.error QErr.empty) ∧
    QErr.empty ≠ QErr.closedAndEmpty := by
  have hcl : (close q).2.closed = true := rfl
  have hcon : (close q).2.contents = q.contents := rfl
  have hmain := getSeq_drains_closed n (close q).2 hcl (by rw [hcon]; exact h)
  refine ⟨by rw [hmain.1, hcon], ?_, ?_, ?_, by decide⟩
  · intro k
    rw [getSeq_exhausted k _ hmain.2.2 hmain.2.1]
  · simp [get, hmain.2.1, hmain.2.2]
  · intro q2 h2 he
    simp [get, he, h2]

theorem queue_closed_drain_witness :
    (getSeq (close (QueueState.mk "q" (some 5) [1, 2] false 2 0)).2 2).1 = [1, 2] ∧
    (∀ k,
      (getSeq (getSeq (close (QueueState.mk "q" (some 5) [1, 2] false 2 0)).2 2).2 k).1
        = []) ∧
    (get (getSeq (close (QueueState.mk "q" (some 5) [1, 2] false 2 0)).2 2).2).1
      = Except.error QErr.closedAndEmpty ∧
    (∀ q2 : QueueState Nat, q2.closed = false → q2.contents = [] →
      (get q2).1 = Except.error QErr.empty) ∧
    QErr.empty ≠ QErr.closedAndEmpty :=
  queue_closed_drain (QueueState.mk "q" (some 5) [1, 2] false 2 0) 2 (by decide)

theorem runTrace_split (ops : List (PGOp α)) :
    ∀ q : QueueState α,
      (runTrace q ops).2.2 ++ (runTrace q ops).1.contents
        = q.contents ++ (runTrace q ops).2.1 := by
  induction ops with
  | nil => intro q; simp [runTrace]
  | cons op rest ih =>
    intro q
    cases op with
    | put x =>
      by_cases hc : q.closed = true
      · have hput : put q x = (some QErr.closed, q) := by simp [put, hc]
        simp [runTrace, hput]
        exact ih q
      · by_cases hf : isFull q = true
        · have hput : put q x = (some QErr.capacity, q) := by simp [put, hc, hf]
          simp [runTrace, hput]
          exact ih q
        · have hput : put q x =
              (none, { q with contents := q.contents ++ [x], statsPut := q.statsPut + 1 }) := by
            simp [put, hc, hf]
          simp only [runTrace, hput]
          have := ih { q with contents := q.contents ++ [x], statsPut := q.statsPut + 1 }
          simp only [this]
          simp
    | get =>
      cases hc : q.contents with
      | nil =>
        by_cases hq : q.closed = true
        · have hget : get q = (Except.error QErr.closedAndEmpty, q) := by
            simp [get, hc, hq]
          simp [runTrace, hget]
          simpa [hc] using ih q
        · have hget : get q = (Except.error QErr.empty, q) := by
            simp [get, hc, hq]
          simp [runTrace, hget]
          simpa [hc] using ih q
      | cons x rest2 =>
        have hget : get q =
            (Except.ok x, { q with contents := rest2, statsGot := q.statsGot + 1 }) := by
          simp [get, hc]
        simp only [runTrace, hget]
        have := ih { q with contents := rest2, statsGot := q.statsGot + 1 }
        simp only [List.cons_append, this]

/-- C3: single producer, single consumer — over any interleaving of
`Put` and `Get` calls on an initially empty queue, the values returned
by the successful `Get` calls followed by what is still queued equal the
values passed to the successful `Put` calls, in order; in particular
once the queue is drained the `Get` sequence equals the `Put` sequence. -/
theorem queue_fifo (nm : String) (c : Option Nat) (ops : List (PGOp α)) :
    (runTrace (newQueue α nm c) ops).2.2 ++ (runTrace (newQueue α nm c) ops).1.contents
      = (runTrace (newQueue α nm c) ops).2.1 ∧
    ((runTrace (newQueue α nm c) ops).1.contents = [] →
      (runTrace (newQueue α nm c) ops).2.2 = (runTrace (newQueue α nm c) ops).2.1) := by
  have h := runTrace_split ops (newQueue α nm c)
  have hnil : (newQueue α nm c).contents = [] := rfl
  rw [hnil] at h
  simp only [List.nil_append] at h
  refine ⟨h, ?_⟩
  intro hdone
  rw [hdone] at h
  simpa using h

theorem queue_fifo_witness :
    (runTrace (newQueue Nat "q" none)
        [PGOp.put 1, PGOp.put 2, PGOp.get, PGOp.get]).1.contents = [] ∧
    (runTrace (newQueue Nat "q" none)
        [PGOp.put 1, PGOp.put 2, PGOp.get, PGOp.get]).2.2
      = (runTrace (newQueue Nat "q" none)
          [PGOp.put 1, PGOp.put 2, PGOp.get, PGOp.get]).2.1 :=
  ⟨by decide, (queue_fifo "q" none [PGOp.put 1, PGOp.put 2, PGOp.get, PGOp.get]).2
    (by decide)⟩

/-- C4: on a closed queue every `Put` fails with the closed error and
leaves the contents, the length, and the statistics unchanged — no
partial insertion on error. -/
theorem put_on_closed_fails (q : QueueState α) (x : α) (h : q.closed = true) :
    put q x = (some QErr.closed, q) ∧
    (put q x).2.contents = q.contents ∧
    len (put q x).2 = len q ∧
    stats (put q x).2 = stats q := by
  have h1 : put q x = (some QErr.closed, q) := by simp [put, h]
  exact ⟨h1, by rw [h1], by rw [h1], by rw [h1]⟩

theorem put_on_closed_fails_witness :
    put (QueueState.mk "q" (some 5) [1, 2] true 2 0) 7
      = (some QErr.closed, QueueState.mk "q" (some 5) [1, 2] true 2 0) ∧
    (put (QueueState.mk "q" (some 5) [1, 2] true 2 0) 7).2.contents = [1, 2] ∧
    len (put (QueueState.mk "q" (some 5) [1, 2] true 2 0) 7).2
      = len (QueueState.mk "q" (some 5) [1, 2] true 2 0) ∧
    stats (put (QueueState.mk "q" (some 5) [1, 2] true 2 0) 7).2
      = stats (QueueState.mk "q" (some 5) [1, 2] true 2 0) :=
  put_on_closed_fails (QueueState.mk "q" (some 5) [1, 2] true 2 0) 7 rfl

theorem stepOp_preserves_closed (q : QueueState α) (op : QOp α)
    (hq : q.closed = true) : (stepOp q op).closed = true := by
  cases op with
  | put x => simp [stepOp, put, hq]
  | get =>
    cases hc : q.contents with
    | nil => simp [stepOp, get, hc, hq]
    | cons x rest => simp [stepOp, get, hc, hq]
  | clear => exact hq
  | close => rfl
  | clearStats => exact hq

theorem runOps_preserves_closed (ops : List (QOp α)) :
    ∀ q : QueueState α, q.closed = true → (runOps q ops).closed = true := by
  induction ops with
  | nil => intro q hq; exact hq
  | cons op rest ih =>
    intro q hq
    exact ih (stepOp q op) (stepOp_preserves_closed q op hq)

/-- C5: `Close()` never returns an error, a second `Close()` is a no-op
on an already-closed queue, `Closed()` is true right after the first
`Close()`, and the closed flag stays true across any further sequence of
queue operations — it is monotonic, never reset. -/
theorem close_idempotent_monotonic (q : QueueState α) :
    (close q).1 = none ∧
    (close (close q).2).1 = none ∧
    (close (close q).2).2 = (close q).2 ∧
    (close q).2.closed = true ∧
    ∀ ops : List (QOp α), (runOps (close q).2 ops).closed = true :=
  ⟨rfl, rfl, rfl, rfl, fun ops => runOps_preserves_closed ops (close q).2 rfl⟩

theorem stepOp_preserves_capacity (q : QueueState α) (op : QOp α) :
    (stepOp q op).capacity = q.capacity := by
  cases op with
  | put x =>
    by_cases hc : q.closed = true
    · simp [stepOp, put, hc]
    · by_cases hf : isFull q = true
      · simp [stepOp, put, hc, hf]
      · simp [stepOp, put, hc, hf]
  | get =>
    cases hc : q.contents with
    | nil => by_cases hq : q.closed = true <;> simp [stepOp, get, hc, hq]
    | cons x rest => simp [stepOp, get, hc]
  | clear => rfl
  | close => rfl
  | clearStats => rfl

theorem runOps_preserves_capacity (ops : List (QOp α)) :
    ∀ q : QueueState α, (runOps q ops).capacity = q.capacity := by
  induction ops with
  | nil => intro q; rfl
  | cons op rest ih =>
    intro q
    rw [runOps, ih (stepOp q op), stepOp_preserves_capacity]

/-- C8: an unbounded queue reports `Cap() = -1`, and still does after any
sequence of queue operations — the sentinel is invariant across any
number of `Put`/`Get` calls. -/
theorem cap_unbounded_invariant (nm : String) (ops : List (QOp α)) :
    cap (newQueue α nm none) = -1 ∧ cap (runOps (newQueue α nm none) ops) = -1 := by
  refine ⟨rfl, ?_⟩
  have h : (runOps (newQueue α nm none) ops).capacity = none :=
    runOps_preserves_capacity ops (newQueue α nm none)
  rw [cap, h]

/-- C9: immediately after `Clear()` the length is 0 whatever the prior
depth was, while the capacity, the closed flag, and the name are exactly
what they were before the clear. -/
theorem clear_resets_len_only (q : QueueState α) :
    len (clear q) = 0 ∧
    cap (clear q) = cap q ∧
    (clear q).closed = q.closed ∧
    (clear q).qname = q.qname :=
  ⟨rfl, rfl, rfl, rfl⟩

/-- C6 (counterexample): the `Queue` interface declares no `Stats` and no
`ClearStats` method — its method set is exactly `Name`, `Put`, `Get`,
`Len`, `Cap`, `Clear`, `Close`, `Closed`, `Monitor`. -/
theorem queue_contract_lacks_stats_methods :
    ("Stats" ∉ queueInterface.map GoMethod.mname) ∧
    ("ClearStats" ∉ queueInterface.map GoMethod.mname) ∧
    queueInterface.map GoMethod.mname
      = ["Name", "Put", "Get", "Len", "Cap", "Clear", "Close", "Closed", "Monitor"] := by
  decide

/-- C6 (amended): the `Queue` contract provides statistics emission and
statistics clearing through the `Monitor` method's channel bundle — a
send-only stats channel and a receive-only clear channel (`Monitor` is
documented to run in a separate thread from the queue access functions)
— and clearing statistics resets the counters to the zero baseline while
leaving the queued contents unchanged. -/
theorem queue_stats_via_monitor_bundle :
    findMethod queueInterface "Monitor" = some monitorMethod ∧
    (monitorMethod.params.filter isSendChan).map GoParam.pname = ["statsChan"] ∧
    (monitorMethod.params.filter isRecvChan).map GoParam.pname
      = ["clearChan", "doneChan"] ∧
    ∀ (α : Type) (q : QueueState α),
      stats (clearStats q) = (0, 0, len q) ∧ (clearStats q).contents = q.contents := by
  refine ⟨by decide, by decide, by decide, ?_⟩
  intro α q
  exact ⟨rfl, rfl⟩

/-- C7 (counterexample): the monitor channel bundle of every plugin
interface is the same `Monitor` signature, and it carries exactly one
outward (send-only) channel, `statsChan` — there is no error-report
channel distinct from the statistics-snapshot channel. -/
theorem monitor_has_no_distinct_error_channel :
    findMethod queueInterface "Monitor" = some monitorMethod ∧
    findMethod ingesterInterface "Monitor" = some monitorMethod ∧
    findMethod digesterInterface "Monitor" = some monitorMethod ∧
    findMethod expellerInterface "Monitor" = some monitorMethod ∧
    (monitorMethod.params.filter isSendChan).length = 1 ∧
    ¬ ∃ p ∈ monitorMethod.params, isSendChan p = true ∧ p.pname ≠ "statsChan" := by
  decide

/-- C7 (amended): every plugin interface's monitor bundle routes error
reports over the statistics path itself — the single send-only channel
`statsChan` of element type `string` is the only outward path a stage
has for reporting, so internal domain errors are reported there instead
of crashing the shared process. -/
theorem monitor_error_path_is_stats_path :
    monitorMethod.params.filter isSendChan
      = [{ pname := "statsChan", ty := GoType.chan ChanDir.sendOnly "string" }] ∧
    findMethod queueInterface "Monitor" = some monitorMethod ∧
    findMethod ingesterInterface "Monitor" = some monitorMethod ∧
    findMethod digesterInterface "Monitor" = some monitorMethod ∧
    findMethod expellerInterface "Monitor" = some monitorMethod := by
  decide

/-- C10: in every long-running method of the four plugin interfaces
(`Queue.Monitor`, `Ingester.Ingest`/`Monitor`, `Digester.Digest`/`Monitor`,
`Expeller.Expel`/`Monitor`), the `doneChan` and `clearChan` parameters are
receive-only channels, the `statsChan` parameter is a send-only channel,
no other parameter is a channel at all, and every such method receives
the done channel — so a plugin can neither assert the done signal, nor
issue a clear request, nor consume statistics. -/
theorem plugin_channel_capabilities :
    (longRunningSigs.all fun om =>
      match om with
      | some m => bundleDirsOk m && m.params.any fun p => p.pname == "doneChan"
      | none => false) = true := by
  decide

end Icd
